import Mathlib

/-!
Verification of the directory enumeration and metadata-aggregation core of the
DirectoryListing repository (`src/services/directoryService.ts`).

The filesystem, being external I/O, is modelled as an abstract record of pure
functions (`FS`): `stat` returning `Option Stats` (`none` models a thrown
error), the three `access` probes returning `Bool` (`false` models a thrown
error), and `readdir` returning `Option (List String)`.  All string and path
manipulation from Node's `path` module (posix flavour) is re-implemented on
`List Char`.  Modelling conventions, each noted at its definition:
- ISO-8601 timestamp strings produced by `moment(...).toISOString()` are
  modelled by their millisecond instant (`Int`); the rendering is injective and
  `new Date(iso).getTime()` recovers the instant.  The empty timestamp string
  of the soft-success metadata descriptor is modelled as `none`.
- `String.prototype.localeCompare` is modelled as lexicographic codepoint
  comparison.
- `Array.prototype.sort` (stable, per ECMA-262) is modelled by a stable
  insertion sort.
- `mode.toString(8)` is modelled by the numeric mode itself (octal rendering
  is injective).
-/

namespace DirListing

/-! ## Node `path` module primitives (posix), on lists of characters -/

/-- Split a character list at `'/'` separators (accumulator holds the current
segment reversed). -/
def splitSegsAux : List Char → List Char → List (List Char)
  | cur, [] => [cur.reverse]
  | cur, c :: rest =>
    if c = '/' then cur.reverse :: splitSegsAux [] rest
    else splitSegsAux (c :: cur) rest

/-- Path segments of a character list: split on `'/'`, dropping empty
segments (duplicate or boundary separators). -/
def splitSegs (l : List Char) : List (List Char) :=
  (splitSegsAux [] l).filter (fun s => !s.isEmpty)

/-- Node's `normalizeString` segment collapsing: `"."` segments are dropped,
`".."` pops the previous real segment; for relative paths
(`allowAboveRoot = true`) leading `".."` segments are preserved, for absolute
paths they are dropped at the root.  The first list is the accumulator of
already-emitted segments, in reverse. -/
def collapseSegs (allowAboveRoot : Bool) : List (List Char) → List (List Char) → List (List Char)
  | acc, [] => acc.reverse
  | acc, s :: rest =>
    if s = ['.'] then collapseSegs allowAboveRoot acc rest
    else if s = ['.', '.'] then
      match acc with
      | [] =>
        if allowAboveRoot then collapseSegs allowAboveRoot [['.', '.']] rest
        else collapseSegs allowAboveRoot [] rest
      | t :: acc2 =>
        if t = ['.', '.'] then collapseSegs allowAboveRoot (s :: acc) rest
        else collapseSegs allowAboveRoot acc2 rest
    else collapseSegs allowAboveRoot (s :: acc) rest

/-- A character list denotes an absolute posix path iff it starts with `'/'`. -/
def isAbsolute (l : List Char) : Bool := l.head? == some '/'

/-- The collapsed (`.`/`..`-resolved) segments of a path, as produced inside
`path.normalize`. -/
def normSegs (l : List Char) : List (List Char) :=
  collapseSegs (!isAbsolute l) [] (splitSegs l)

/-- Node `path.posix.normalize` on character lists. -/
def normalizeChars (l : List Char) : List Char :=
  if l = [] then ['.']
  else
    let abs := isAbsolute l
    let trailing := l.getLast? == some '/'
    let segs := normSegs l
    if segs = [] then
      if abs then ['/'] else if trailing then ['.', '/'] else ['.']
    else
      let body := List.intercalate ['/'] segs
      let body2 := if trailing then body ++ ['/'] else body
      if abs then '/' :: body2 else body2

/-- Node `path.posix.normalize`. -/
def normalizePath (s : String) : String := String.mk (normalizeChars s.toList)

/-- Node `path.posix.resolve(p)` against a current working directory: make
the path absolute, collapse segments with `allowAboveRoot = false`, render
with a leading `'/'`. -/
def resolvePath (cwd p : String) : String :=
  let full := if isAbsolute p.toList then p.toList else cwd.toList ++ '/' :: p.toList
  String.mk ('/' :: List.intercalate ['/'] (collapseSegs false [] (splitSegs full)))

/-- Node `path.posix.join(a, b) = normalize(a + "/" + b)`. -/
def joinPath (a b : String) : String :=
  String.mk (normalizeChars (a.toList ++ '/' :: b.toList))

/-! ## JS string primitives -/

/-- ASCII lowercasing of one character (the deny-list and the paths compared
against it are ASCII; `toLowerCase` is modelled on ASCII letters). -/
def lowerChar (c : Char) : Char :=
  if 'A' ≤ c ∧ c ≤ 'Z' then Char.ofNat (c.toNat + 32) else c

/-- ASCII lowercasing of a character list (JS `String.prototype.toLowerCase`). -/
def lowerList (l : List Char) : List Char := l.map lowerChar

/-- Boolean list-prefix test. -/
def isPrefixList : List Char → List Char → Bool
  | [], _ => true
  | _ :: _, [] => false
  | a :: as, b :: bs => a == b && isPrefixList as bs

/-- JS `String.prototype.includes`: does `pat` occur as a contiguous substring? -/
def containsList (pat : List Char) : List Char → Bool
  | [] => pat.isEmpty
  | c :: rest => isPrefixList pat (c :: rest) || containsList pat rest

/-- Lexicographic codepoint order on character lists (model of the ordering
underlying `localeCompare`). -/
def ltList : List Char → List Char → Bool
  | [], [] => false
  | [], _ :: _ => true
  | _ :: _, [] => false
  | a :: as, b :: bs => if a = b then ltList as bs else decide (a < b)

/-- Three-way string comparison returning a JS-comparator style `Int`
(model of `a.localeCompare(b)`). -/
def strCompare (a b : String) : Int :=
  if ltList a.toList b.toList then -1
  else if ltList b.toList a.toList then 1
  else 0

/-- Index of the last `'.'` in a character list, if any. -/
def lastDotIdxAux : Nat → Option Nat → List Char → Option Nat
  | _, best, [] => best
  | i, best, c :: rest => lastDotIdxAux (i + 1) (if c = '.' then some i else best) rest

/-- Node `path.extname` restricted to plain basenames (the names returned by
`readdir` contain no separators and are never `"."`/`".."`). -/
def extname (b : String) : String :=
  if b = "." ∨ b = ".." then ""
  else
    match lastDotIdxAux 0 none b.toList with
    | none => ""
    | some 0 => ""
    | some i => String.mk (b.toList.drop i)

/-! ## Data model and abstract filesystem -/

/-- The error taxonomy of the service, matching the `createError(message,
statusCode)` sites: `invalidInput` (400), `pathTraversal` (403),
`accessDenied` (403), `notFound` (404), `notADirectory` (400), and
`fsFailure` for a raw filesystem error thrown without a `statusCode`. -/
inductive ServiceError
  | invalidInput
  | pathTraversal
  | accessDenied
  | notFound
  | notADirectory
  | fsFailure
  deriving DecidableEq

/-- The result of a successful `fs.stat`: kind flags, byte size, the three
timestamps (millisecond instants), numeric mode, uid and gid. -/
structure Stats where
  isDir : Bool
  isFile : Bool
  size : Nat
  birthtime : Int
  mtime : Int
  atime : Int
  mode : Nat
  uid : Nat
  gid : Nat
  deriving DecidableEq

/-- Abstract snapshot of the filesystem and process environment over which
one request executes.  `statOf p = none` models `stat` throwing; an access
probe returning `false` models `access` throwing; `readdirOf p = none` models
`readdir` throwing. -/
structure FS where
  cwd : String
  isWindows : Bool
  userInfoName : Option String
  statOf : String → Option Stats
  accessR : String → Bool
  accessW : String → Bool
  accessX : String → Bool
  readdirOf : String → Option (List String)

/-- `DirectoryService.MAX_PATH_LENGTH`. -/
def MAX_PATH_LENGTH : Nat := 4096

/-- `DirectoryService.RESTRICTED_PATHS`. -/
def RESTRICTED_PATHS : List String :=
  ["/etc/shadow", "/etc/passwd",
   "C:\\Windows\\System32\\config", "C:\\Windows\\System32\\drivers\\etc"]

/-- `DirectoryService.validatePath`: reject empty/oversized input, then a
normalized path containing `".."` as a substring, then a path whose lowercase
form contains a deny-list entry, then a path that fails the read-access
probe. -/
def validatePath (fs : FS) (dirPath : String) : Except ServiceError Unit :=
  if dirPath = "" ∨ MAX_PATH_LENGTH < dirPath.length then .error .invalidInput
  else
    let normalizedPath := normalizePath dirPath
    if containsList ['.', '.'] normalizedPath.toList then .error .pathTraversal
    else if RESTRICTED_PATHS.any
        (fun r => containsList (lowerList r.toList) (lowerList normalizedPath.toList)) then
      .error .accessDenied
    else if fs.accessR normalizedPath then .ok () else .error .notFound

/-! ## Per-entry metadata resolution -/

/-- The permission/ownership block of a `FileInfo` (`mode` models the octal
string `mode.toString(8)` by its numeric value). -/
structure FilePermissions where
  readable : Bool
  writable : Bool
  executable : Bool
  owner : String
  group : String
  mode : Nat
  deriving DecidableEq

/-- `DirectoryService.getFilePermissions`: each flag starts `false` and is set
`true` exactly when the corresponding `access` probe succeeds (a throwing
probe is caught and leaves the flag `false`); on non-Windows platforms owner
and group are resolved best-effort from `os.userInfo()` (an empty or missing
username falls back to the uid), otherwise they stay `"unknown"`. -/
def getFilePermissions (fs : FS) (filePath : String) (stats : Stats) : FilePermissions where
  readable := fs.accessR filePath
  writable := fs.accessW filePath
  executable := fs.accessX filePath
  owner :=
    if fs.isWindows then "unknown"
    else
      match fs.userInfoName with
      | some n => if n = "" then toString stats.uid else n
      | none => toString stats.uid
  group := if fs.isWindows then "unknown" else toString stats.gid
  mode := stats.mode

/-- Entry kind: exactly one of `file`/`directory` (`'file' | 'directory'`). -/
inductive EntryType
  | file
  | directory
  deriving DecidableEq

/-- The JS string value of an entry kind (used by the `type` sort key's
`localeCompare`). -/
def typeString : EntryType → String
  | .file => "file"
  | .directory => "directory"

/-- One filesystem child as returned in a listing (`FileInfo` in
`src/types/directory.ts`); timestamps are modelled by their instants. -/
structure FileInfo where
  name : String
  path : String
  size : Nat
  extension : String
  type : EntryType
  createdDate : Int
  modifiedDate : Int
  permissions : FilePermissions
  isHidden : Bool
  deriving DecidableEq

/-- `DirectoryService.createFileInfo`: `stat` the entry (a failure propagates
as `none`), resolve permissions, and build the descriptor.  Directories get
size 0 and empty extension; hidden means the name starts with `'.'`, or with
`'$'` on Windows. -/
def createFileInfo (fs : FS) (filePath fileName : String) : Option FileInfo :=
  match fs.statOf filePath with
  | none => none
  | some stats =>
    let permissions := getFilePermissions fs filePath stats
    let isDirectory := stats.isDir
    some
      { name := fileName
        path := filePath
        size := if isDirectory then 0 else stats.size
        extension := if isDirectory then "" else String.mk (lowerList (extname fileName).toList)
        type := if isDirectory then .directory else .file
        createdDate := stats.birthtime
        modifiedDate := stats.mtime
        permissions := permissions
        isHidden := fileName.toList.head? == some '.'
          || (fs.isWindows && fileName.toList.head? == some '$') }

/-- The per-entry body of the `fileNames.map` in `listDirectory`: resolve the
child at `path.join(normalizedPath, fileName)`; a failed resolution or a
hidden entry (when hidden files are not requested) yields `null`. -/
def resolveEntry (fs : FS) (dir : String) (includeHidden : Bool) (fileName : String) :
    Option FileInfo :=
  match createFileInfo fs (joinPath dir fileName) fileName with
  | none => none
  | some fileInfo => if !includeHidden && fileInfo.isHidden then none else some fileInfo

/-- The full filtered entry set (`allItems` before sorting): the `readdir`
names mapped through per-entry resolution, with `null` results dropped. -/
def collectEntries (fs : FS) (dir : String) (includeHidden : Bool)
    (names : List String) : List FileInfo :=
  names.filterMap (resolveEntry fs dir includeHidden)

/-! ## Sorting and pagination -/

/-- Sort keys (`sortBy`). -/
inductive SortKey
  | name
  | size
  | modified
  | type
  deriving DecidableEq

/-- Sort orders (`sortOrder`). -/
inductive SortOrder
  | asc
  | desc
  deriving DecidableEq

/-- The `comparison` value of the sort callback before the order is applied:
`localeCompare` for `name`/`type`, numeric difference for `size`, timestamp
difference for `modified`. -/
def baseComparison (sortBy : SortKey) (a b : FileInfo) : Int :=
  match sortBy with
  | .name => strCompare a.name b.name
  | .size => (a.size : Int) - (b.size : Int)
  | .modified => a.modifiedDate - b.modifiedDate
  | .type => strCompare (typeString a.type) (typeString b.type)

/-- The sort callback's return value: the base comparison, negated for
descending order. -/
def comparison (sortBy : SortKey) (sortOrder : SortOrder) (a b : FileInfo) : Int :=
  if sortOrder = .desc then -(baseComparison sortBy a b) else baseComparison sortBy a b

/-- Insert `x` into `l` after every element `y` with `le y x`; the building
block of a stable sort. -/
def insertStable (le : α → α → Bool) (x : α) : List α → List α
  | [] => [x]
  | y :: ys => if le y x then y :: insertStable le x ys else x :: y :: ys

/-- Stable insertion sort (model of ECMA-262 `Array.prototype.sort`, which is
required to be stable): equal elements keep their original relative order. -/
def stableSort (le : α → α → Bool) (l : List α) : List α :=
  l.foldl (fun acc x => insertStable le x acc) []

/-- The `allItems.sort(...)` step of `listDirectory`. -/
def sortEntries (sortBy : SortKey) (sortOrder : SortOrder) (items : List FileInfo) :
    List FileInfo :=
  stableSort (fun a b => decide (comparison sortBy sortOrder a b ≤ 0)) items

/-- JS `Array.prototype.slice(start, stop)` with its index clamping
semantics (negative indices count from the end). -/
def jsSlice (xs : List α) (start stop : Int) : List α :=
  let len : Int := xs.length
  let s := if start < 0 then max (len + start) 0 else min start len
  let e := if stop < 0 then max (len + stop) 0 else min stop len
  (xs.drop s.toNat).take (e - s).toNat

/-- Pagination summary of a listing response. -/
structure PaginationInfo where
  page : Int
  limit : Int
  total : Int
  totalPages : Int
  hasNext : Bool
  hasPrevious : Bool
  deriving DecidableEq

/-- Aggregate summary of a listing response (`scannedAt` models the
`new Date().toISOString()` scan timestamp by its instant). -/
structure ListingMetadata where
  totalFiles : Nat
  totalDirectories : Nat
  totalSize : Nat
  scannedAt : Int
  deriving DecidableEq

/-- `DirectoryListingResponse` from `src/types/directory.ts`. -/
structure DirectoryListingResponse where
  path : String
  items : List FileInfo
  pagination : PaginationInfo
  metadata : ListingMetadata
  deriving DecidableEq

/-- The successful tail of `listDirectory`, given the `readdir` names: filter
and resolve entries, sort the full set, compute the pagination values
(`totalPages = Math.ceil(total / limit)` — for `limit ≥ 1` the exact integer
ceiling is `(total + limit - 1) / limit`), slice the page, and compute the
aggregates over the full filtered set.  `now` is the clock instant read by
`new Date()` for `scannedAt`. -/
def buildResponse (fs : FS) (now : Int) (dirPath : String) (page limit : Int)
    (includeHidden : Bool) (sortBy : SortKey) (sortOrder : SortOrder)
    (names : List String) : DirectoryListingResponse :=
  let normalizedPath := resolvePath fs.cwd dirPath
  let allItems := sortEntries sortBy sortOrder (collectEntries fs normalizedPath includeHidden names)
  let total : Int := allItems.length
  let totalPages : Int := (total + limit - 1) / limit
  let startIndex : Int := (page - 1) * limit
  let endIndex : Int := startIndex + limit
  { path := normalizedPath
    items := jsSlice allItems startIndex endIndex
    pagination :=
      { page := page
        limit := limit
        total := total
        totalPages := totalPages
        hasNext := decide (page < totalPages)
        hasPrevious := decide (1 < page) }
    metadata :=
      { totalFiles := (allItems.filter (fun i => i.type == .file)).length
        totalDirectories := (allItems.filter (fun i => i.type == .directory)).length
        totalSize := ((allItems.filter (fun i => i.type == .file)).map (fun i => i.size)).sum
        scannedAt := now } }

/-- `DirectoryService.listDirectory`: validate the path, resolve it, require
a directory, enumerate its children, and build the paged response. -/
def listDirectory (fs : FS) (now : Int) (dirPath : String) (page limit : Int)
    (includeHidden : Bool) (sortBy : SortKey) (sortOrder : SortOrder) :
    Except ServiceError DirectoryListingResponse :=
  match validatePath fs dirPath with
  | .error e => .error e
  | .ok _ =>
    let normalizedPath := resolvePath fs.cwd dirPath
    match fs.statOf normalizedPath with
    | none => .error .fsFailure
    | some pathStats =>
      if pathStats.isDir then
        match fs.readdirOf normalizedPath with
        | none => .error .fsFailure
        | some fileNames =>
          .ok (buildResponse fs now dirPath page limit includeHidden sortBy sortOrder fileNames)
      else .error .notADirectory

/-! ## Metadata probe -/

/-- `DirectoryMetadata` from `src/types/directory.ts`; the empty timestamp
strings of the soft-success descriptor are modelled as `none`. -/
structure DirectoryMetadata where
  path : String
  exists_ : Bool
  isDirectory : Bool
  readable : Bool
  writable : Bool
  executable : Bool
  totalItems : Nat
  totalSize : Nat
  lastAccessed : Option Int
  lastModified : Option Int
  created : Option Int
  deriving DecidableEq

/-- The soft-success "does not exist" descriptor returned by
`getDirectoryMetadata` when validation fails with a 404. -/
def notFoundMetadata (normalizedPath : String) : DirectoryMetadata where
  path := normalizedPath
  exists_ := false
  isDirectory := false
  readable := false
  writable := false
  executable := false
  totalItems := 0
  totalSize := 0
  lastAccessed := none
  lastModified := none
  created := none

/-- The byte contribution of one immediate child in the metadata probe's size
rollup: its size if it stats as a regular file, otherwise 0 (a failing stat
contributes 0). -/
def childSize (fs : FS) (dir item : String) : Nat :=
  match fs.statOf (joinPath dir item) with
  | none => 0
  | some itemStats => if itemStats.isFile then itemStats.size else 0

/-- `DirectoryService.getDirectoryMetadata`: resolve the path, then run
validation, stat, permission probes and (for directories) the best-effort
child count and size rollup; any error carrying status 404 — validation's
`notFound` — is converted into the soft-success descriptor, every other
error propagates. -/
def getDirectoryMetadata (fs : FS) (dirPath : String) : Except ServiceError DirectoryMetadata :=
  let normalizedPath := resolvePath fs.cwd dirPath
  let attempt : Except ServiceError DirectoryMetadata :=
    match validatePath fs dirPath with
    | .error e => .error e
    | .ok _ =>
      match fs.statOf normalizedPath with
      | none => .error .fsFailure
      | some stats =>
        let permissions := getFilePermissions fs normalizedPath stats
        let counts : Nat × Nat :=
          if stats.isDir then
            match fs.readdirOf normalizedPath with
            | none => (0, 0)
            | some items => (items.length, (items.map (childSize fs normalizedPath)).sum)
          else (0, 0)
        .ok
          { path := normalizedPath
            exists_ := true
            isDirectory := stats.isDir
            readable := permissions.readable
            writable := permissions.writable
            executable := permissions.executable
            totalItems := counts.1
            totalSize := counts.2
            lastAccessed := some stats.atime
            lastModified := some stats.mtime
            created := some stats.birthtime }
  match attempt with
  | .error .notFound => .ok (notFoundMetadata normalizedPath)
  | other => other

/-! ## The boundary validation of the HTTP controller -/

/-- The raw query of a listing request as it reaches the controller
(`src/controllers/directoryController.ts`), optional fields absent when not
supplied. -/
structure ListingQuery where
  path : String
  page : Option Int
  limit : Option Int
  includeHidden : Option Bool
  sortBy : Option SortKey
  sortOrder : Option SortOrder

/-- The `express-validator` rules of `validateDirectoryListing`: `path`
nonempty and at most 4096 long, `page` (when present) an integer ≥ 1,
`limit` (when present) an integer in 1..1000; enumerated fields are typed in
the model. -/
def listingQueryValid (q : ListingQuery) : Bool :=
  !(q.path = "") && q.path.length ≤ 4096
    && (match q.page with | none => true | some p => 1 ≤ p)
    && (match q.limit with | none => true | some l => 1 ≤ l && l ≤ 1000)

/-- The listing controller: reject the request when validation fails,
otherwise call the service with the defaults
`page=1, limit=100, includeHidden=false, sortBy=name, sortOrder=asc`.
`none` in the result models the 400 `Validation failed` response. -/
def listEndpoint (fs : FS) (now : Int) (q : ListingQuery) :
    Option (Except ServiceError DirectoryListingResponse) :=
  if listingQueryValid q then
    some (listDirectory fs now q.path (q.page.getD 1) (q.limit.getD 100)
      (q.includeHidden.getD false) (q.sortBy.getD .name) (q.sortOrder.getD .asc))
  else none

/-! ## Derived result-shape helpers -/

deriving instance DecidableEq for Except

/-- The items of a listing outcome (empty when the call failed). -/
def itemsOf : Except ServiceError DirectoryListingResponse → List FileInfo
  | .ok r => r.items
  | .error _ => []

/-- Erase the scan timestamp of a listing outcome (used to compare two calls
made at different instants). -/
def eraseScanTime : Except ServiceError DirectoryListingResponse →
    Except ServiceError DirectoryListingResponse
  | .error e => .error e
  | .ok r => .ok { r with metadata := { r.metadata with scannedAt := 0 } }

/-! ## Substring and infix lemmas -/

theorem isPrefixList_sound {p l : List Char} (h : p <+: l) : isPrefixList p l = true := by
  induction p generalizing l with
  | nil => rfl
  | cons a as ih =>
    obtain ⟨t, rfl⟩ := h
    simp only [List.cons_append, isPrefixList, beq_self_eq_true, Bool.true_and]
    exact ih ⟨t, rfl⟩

theorem containsList_sound {p l : List Char} (h : p <:+: l) : containsList p l = true := by
  obtain ⟨s, t, rfl⟩ := h
  induction s with
  | nil =>
    cases p with
    | nil =>
      cases t with
      | nil => rfl
      | cons c cs => simp [containsList, isPrefixList]
    | cons c cs =>
      simp only [List.nil_append, List.cons_append, containsList, Bool.or_eq_true]
      exact Or.inl (isPrefixList_sound ⟨t, by simp⟩)
  | cons a s ih =>
    simp only [List.cons_append, containsList, Bool.or_eq_true]
    exact Or.inr (by simpa using ih)

theorem mem_intersperse_of_mem {α : Type} {x sep : α} :
    ∀ {l : List α}, x ∈ l → x ∈ l.intersperse sep := by
  intro l
  induction l with
  | nil => intro h; cases h
  | cons a rest ih =>
    intro h
    cases rest with
    | nil => simpa using h
    | cons b bs =>
      show x ∈ a :: sep :: List.intersperse sep (b :: bs)
      rcases List.mem_cons.mp h with rfl | h2
      · exact List.mem_cons_self ..
      · exact List.mem_cons_of_mem _ (List.mem_cons_of_mem _ (ih h2))

theorem infix_intercalate_of_mem {x sep : List Char} {xss : List (List Char)}
    (h : x ∈ xss) : x <:+: List.intercalate sep xss :=
  List.infix_of_mem_flatten (mem_intersperse_of_mem h)

/-! ## Lemmas about path normalization and the traversal check -/

theorem normSegs_nil : normSegs ([] : List Char) = [] := rfl

/-- If a parent-directory segment survives collapsing, the rendered
normalized path contains `".."` as a substring (the check the source
performs with `includes`). -/
theorem containsDotDot_of_parentSeg {l : List Char} (h : ['.', '.'] ∈ normSegs l) :
    containsList ['.', '.'] (normalizeChars l) = true := by
  have hne : l ≠ [] := by
    rintro rfl
    rw [normSegs_nil] at h
    cases h
  have hsegs : normSegs l ≠ [] := List.ne_nil_of_mem h
  have hinf : ['.', '.'] <:+: List.intercalate ['/'] (normSegs l) :=
    infix_intercalate_of_mem h
  apply containsList_sound
  unfold normalizeChars
  rw [if_neg hne]
  simp only
  rw [if_neg hsegs]
  rcases Bool.eq_false_or_eq_true (isAbsolute l) with habs | habs <;>
    rcases Bool.eq_false_or_eq_true (l.getLast? == some '/') with htr | htr <;>
      simp only [habs, htr, if_true, if_false, Bool.false_eq_true]
  · exact List.infix_cons (hinf.trans (List.prefix_append _ _).isInfix)
  · exact List.infix_cons hinf
  · exact hinf.trans (List.prefix_append _ _).isInfix
  · exact hinf

/-- Core fact behind claim C1: a nonempty, length-bounded raw path whose
collapsed segments still contain `".."` is rejected by `validatePath` with
the traversal error. -/
theorem validatePath_pathTraversal (fs : FS) (dirPath : String)
    (hlen : dirPath.length ≤ MAX_PATH_LENGTH)
    (htrav : ['.', '.'] ∈ normSegs dirPath.toList) :
    validatePath fs dirPath = .error .pathTraversal := by
  have hne : dirPath ≠ "" := by
    rintro rfl
    rw [show ("" : String).toList = [] from rfl, normSegs_nil] at htrav
    cases htrav
  unfold validatePath
  rw [if_neg (by push_neg; exact ⟨hne, by omega⟩)]
  simp only
  rw [show (normalizePath dirPath).toList = normalizeChars dirPath.toList from rfl,
    containsDotDot_of_parentSeg htrav]
  rfl

/-! ## Stable sort: permutation facts -/

theorem insertStable_perm (le : α → α → Bool) (x : α) :
    ∀ l : List α, (insertStable le x l).Perm (x :: l)
  | [] => List.Perm.refl _
  | y :: ys => by
    unfold insertStable
    by_cases h : le y x = true
    · rw [if_pos h]
      exact ((insertStable_perm le x ys).cons y).trans (List.Perm.swap ..)
    · rw [if_neg h]

theorem foldl_insertStable_perm (le : α → α → Bool) :
    ∀ (l acc : List α), (l.foldl (fun acc x => insertStable le x acc) acc).Perm (l ++ acc)
  | [], _ => by simp
  | x :: xs, acc => by
    simp only [List.foldl_cons, List.cons_append]
    exact (foldl_insertStable_perm le xs _).trans
      ((List.Perm.append_left xs (insertStable_perm le x acc)).trans List.perm_middle)

theorem stableSort_perm (le : α → α → Bool) (l : List α) : (stableSort le l).Perm l := by
  simpa using foldl_insertStable_perm le l []

theorem sortEntries_perm (sortBy : SortKey) (sortOrder : SortOrder) (items : List FileInfo) :
    (sortEntries sortBy sortOrder items).Perm items :=
  stableSort_perm _ items

theorem sortEntries_length (sortBy : SortKey) (sortOrder : SortOrder) (items : List FileInfo) :
    (sortEntries sortBy sortOrder items).length = items.length :=
  (sortEntries_perm sortBy sortOrder items).length_eq

/-! ## Ceiling division and the pagination partition -/

/-- Integer ceiling `⌈n / L⌉` as computed by `Math.ceil(total / limit)` for
nonnegative `n` and positive `L`. -/
def cdiv (n L : Nat) : Nat := (n + L - 1) / L

theorem cdiv_zero {L : Nat} (hL : 1 ≤ L) : cdiv 0 L = 0 := by
  unfold cdiv
  exact Nat.div_eq_of_lt (by omega)

theorem cdiv_of_pos {n L : Nat} (hL : 1 ≤ L) (hn : 0 < n) :
    cdiv n L = (n - 1) / L + 1 := by
  unfold cdiv
  rw [show n + L - 1 = (n - 1) + L by omega, Nat.add_div_right _ hL]

theorem cdiv_succ {n L : Nat} (hL : 1 ≤ L) (hn : 0 < n) :
    cdiv n L = cdiv (n - L) L + 1 := by
  rcases le_or_lt n L with h | h
  · rw [cdiv_of_pos hL hn, Nat.sub_eq_zero_of_le h, cdiv_zero hL,
      Nat.div_eq_of_lt (show n - 1 < L by omega)]
  · rw [cdiv_of_pos hL hn, cdiv_of_pos hL (by omega),
      show n - 1 = (n - L - 1) + L by omega, Nat.add_div_right _ hL]

theorem cdiv_eq_zero_iff {n L : Nat} (hL : 1 ≤ L) : cdiv n L = 0 ↔ n = 0 := by
  constructor
  · intro h
    by_contra hn
    rw [cdiv_of_pos hL (by omega)] at h
    exact Nat.succ_ne_zero _ h
  · rintro rfl
    exact cdiv_zero hL

/-- Partition property of consecutive `[k*L, (k+1)*L)` slices: taken for
`k = 0, …, ⌈len/L⌉ - 1` they concatenate back to the whole list. -/
theorem pages_flatten {α : Type} {L : Nat} (hL : 1 ≤ L) :
    ∀ (n : Nat) (xs : List α), cdiv xs.length L = n →
      ((List.range n).map (fun k => (xs.drop (k * L)).take L)).flatten = xs := by
  intro n
  induction n with
  | zero =>
    intro xs h
    rw [(cdiv_eq_zero_iff hL).mp h |> List.eq_nil_of_length_eq_zero]
    rfl
  | succ n ihn =>
    intro xs h
    have hlen : 0 < xs.length := by
      by_contra h0
      rw [show xs.length = 0 by omega, cdiv_zero hL] at h
      omega
    have hfun : (fun k => (xs.drop (Nat.succ k * L)).take L)
        = (fun k => (((xs.drop L).drop (k * L))).take L) := by
      funext k
      rw [List.drop_drop, Nat.succ_mul, Nat.add_comm]
    have hcd : cdiv (xs.drop L).length L = n := by
      rw [List.length_drop]
      have := cdiv_succ hL hlen
      omega
    rw [List.range_succ_eq_map, List.map_cons, List.flatten_cons, List.map_map]
    rw [show ((fun k => (xs.drop (k * L)).take L) ∘ Nat.succ)
        = (fun k => (((xs.drop L).drop (k * L))).take L) from hfun ▸ rfl]
    rw [ihn _ hcd]
    simp [List.take_append_drop]

/-! ## Slice normalization and cast bridges -/

theorem drop_take_clamp {α : Type} (xs : List α) (m n : Nat) :
    (xs.drop (min m xs.length)).take (min n xs.length - min m xs.length)
      = (xs.drop m).take (n - m) := by
  rcases le_or_lt m xs.length with hm | hm
  · rw [min_eq_left hm]
    rcases le_or_lt n xs.length with hn | hn
    · rw [min_eq_left hn]
    · rw [min_eq_right hn.le,
        List.take_of_length_le (by rw [List.length_drop]),
        List.take_of_length_le (by rw [List.length_drop]; omega)]
  · rw [min_eq_right hm.le, List.drop_length, List.drop_eq_nil_of_le hm.le]
    simp

/-- JS `slice` at nonnegative integer indices is plain `drop`/`take`. -/
theorem jsSlice_natCast {α : Type} (xs : List α) (m n : Nat) :
    jsSlice xs (m : Int) (n : Int) = (xs.drop m).take (n - m) := by
  unfold jsSlice
  simp only [if_neg (show ¬((m : Int) < 0) by omega),
    if_neg (show ¬((n : Int) < 0) by omega)]
  rw [show ((m : Int) ⊓ (xs.length : Int)) = ((min m xs.length : Nat) : Int) by
      simp [Nat.cast_min],
    show ((n : Int) ⊓ (xs.length : Int)) = ((min n xs.length : Nat) : Int) by
      simp [Nat.cast_min],
    Int.toNat_natCast, Int.toNat_sub]
  exact drop_take_clamp xs m n

/-- The `Math.ceil(total / limit)` value computed in `buildResponse`, as a
cast of the `Nat` ceiling division, for positive `limit`. -/
theorem totalPages_cast (total : Nat) {limit : Int} (hlim : 1 ≤ limit) :
    ((total : Int) + limit - 1) / limit = ((cdiv total limit.toNat : Nat) : Int) := by
  have hL : limit = ((limit.toNat : Nat) : Int) := (Int.toNat_of_nonneg (by omega)).symm
  rw [hL]
  have h1 : 1 ≤ limit.toNat := by omega
  rw [show ((total : Int) + (limit.toNat : Int) - 1) = ((total + limit.toNat - 1 : Nat) : Int) by
      push_cast [Nat.cast_sub (show 1 ≤ total + limit.toNat by omega)]; ring]
  rw [← Int.ofNat_ediv]
  rfl

/-- Every entry's kind is `file` or `directory`, so the two kind filters
partition the list. -/
theorem length_filter_kinds (l : List FileInfo) :
    (l.filter (fun i => i.type == EntryType.file)).length
      + (l.filter (fun i => i.type == EntryType.directory)).length = l.length := by
  induction l with
  | nil => rfl
  | cons x xs ihx =>
    cases hx : x.type <;> simp [List.filter_cons, hx] <;> omega

/-- Dropping at least one element of a `filterMap` makes it strictly
shorter. -/
theorem length_filterMap_lt {α β : Type} (f : α → Option β) {l : List α} {x : α}
    (hx : x ∈ l) (hf : f x = none) : (l.filterMap f).length < l.length := by
  induction l with
  | nil => cases hx
  | cons y ys ih =>
    rcases List.mem_cons.mp hx with rfl | hmem
    · rw [List.filterMap_cons, hf]
      have := List.length_filterMap_le f ys
      simp only [List.length_cons]
      omega
    · rw [List.filterMap_cons]
      cases f y with
      | none =>
        have := ih hmem
        simp only [List.length_cons]
        omega
      | some b =>
        have := ih hmem
        simp only [List.length_cons]
        omega

/-! ## Success shape of a listing call -/

/-- When validation, the directory stat and the enumeration all succeed, the
listing call returns exactly the built response. -/
theorem listDirectory_eq (fs : FS) (now : Int) (dirPath : String) (page limit : Int)
    (includeHidden : Bool) (sortBy : SortKey) (sortOrder : SortOrder)
    (names : List String) (st : Stats)
    (hv : validatePath fs dirPath = .ok ())
    (hst : fs.statOf (resolvePath fs.cwd dirPath) = some st)
    (hdir : st.isDir = true)
    (hrd : fs.readdirOf (resolvePath fs.cwd dirPath) = some names) :
    listDirectory fs now dirPath page limit includeHidden sortBy sortOrder =
      .ok (buildResponse fs now dirPath page limit includeHidden sortBy sortOrder names) := by
  unfold listDirectory
  rw [hv]
  simp only [hst, hdir, hrd, if_true]

/-! ## Concrete filesystems for witnesses and counterexamples -/

/-- A filesystem with nothing in it. -/
def fsEmpty : FS where
  cwd := "/"
  isWindows := false
  userInfoName := none
  statOf := fun _ => none
  accessR := fun _ => false
  accessW := fun _ => false
  accessX := fun _ => false
  readdirOf := fun _ => none

/-- Stats of a plain directory. -/
def dirStats : Stats where
  isDir := true
  isFile := false
  size := 4096
  birthtime := 1
  mtime := 2
  atime := 3
  mode := 493
  uid := 1
  gid := 2

/-- Stats of a 5-byte regular file. -/
def fileStats : Stats where
  isDir := false
  isFile := true
  size := 5
  birthtime := 10
  mtime := 20
  atime := 30
  mode := 420
  uid := 1
  gid := 2

/-- A filesystem holding one empty readable directory `/d`. -/
def fsOne : FS where
  cwd := "/"
  isWindows := false
  userInfoName := none
  statOf := fun s => if s == "/d" then some dirStats else none
  accessR := fun s => s == "/d"
  accessW := fun _ => false
  accessX := fun _ => false
  readdirOf := fun s => if s == "/d" then some [] else none

/-- The enumeration order of `/d` in `fsABC`. -/
def abcNames : List String := ["b", "a", "c"]

/-- A filesystem holding a directory `/d` with three 5-byte files
`a`, `b`, `c`, enumerated as `[b, a, c]`. -/
def fsABC : FS where
  cwd := "/"
  isWindows := false
  userInfoName := some "user"
  statOf := fun s =>
    if s == "/d" then some dirStats
    else if s == "/d/a" || s == "/d/b" || s == "/d/c" then some fileStats
    else none
  accessR := fun s => s == "/d" || s == "/d/a" || s == "/d/b" || s == "/d/c"
  accessW := fun _ => false
  accessX := fun _ => false
  readdirOf := fun s => if s == "/d" then some abcNames else none

/-- A filesystem whose directory `/d` enumerates two children, of which
`bad` cannot be stat-ed. -/
def fsBad : FS where
  cwd := "/"
  isWindows := false
  userInfoName := none
  statOf := fun s =>
    if s == "/d" then some dirStats
    else if s == "/d/good" then some fileStats
    else none
  accessR := fun s => s == "/d" || s == "/d/good"
  accessW := fun s => s == "/d/good"
  accessX := fun _ => false
  readdirOf := fun s => if s == "/d" then some ["good", "bad"] else none

/-! ## Claim C1: traversal segments are rejected before enumeration -/

/-- C1: for every raw input path (a `PathQuery`, whose invariant bounds its
length by 4096) whose collapsed segments still contain a parent-directory
traversal segment `".."`, Path Guard validation fails with `PathTraversal`
and the Listing Engine returns that failure without enumerating anything. -/
theorem traversal_rejected_before_enumeration (fs : FS) (now : Int) (dirPath : String)
    (page limit : Int) (includeHidden : Bool) (sortBy : SortKey) (sortOrder : SortOrder)
    (hlen : dirPath.length ≤ MAX_PATH_LENGTH)
    (htrav : ['.', '.'] ∈ normSegs dirPath.toList) :
    validatePath fs dirPath = .error .pathTraversal ∧
    listDirectory fs now dirPath page limit includeHidden sortBy sortOrder =
      .error .pathTraversal := by
  have hv := validatePath_pathTraversal fs dirPath hlen htrav
  refine ⟨hv, ?_⟩
  unfold listDirectory
  rw [hv]

/-- Witness for C1 at the spec's own example path `a/../../etc`. -/
theorem traversal_rejected_before_enumeration_witness :
    validatePath fsEmpty "a/../../etc" = .error .pathTraversal ∧
    listDirectory fsEmpty 0 "a/../../etc" 1 100 false .name .asc = .error .pathTraversal :=
  traversal_rejected_before_enumeration fsEmpty 0 "a/../../etc" 1 100 false .name .asc
    (by decide) (by decide)

/-! ## Claim C7: the metadata probe soft-succeeds exactly on NotFound -/

/-- C7: when Path Guard fails with `NotFound`, the metadata probe returns
the soft-success descriptor (exists/isDirectory false, permission flags
false, zero counters, empty timestamps — modelled as `none`) instead of an
error, while `PathTraversal`, `AccessDenied` and `InvalidInput` failures
propagate unchanged. -/
theorem metadataProbe_notFound_soft_success (fs : FS) (dirPath : String) (e : ServiceError)
    (hv : validatePath fs dirPath = .error e) :
    getDirectoryMetadata fs dirPath =
      (if e = .notFound then .ok (notFoundMetadata (resolvePath fs.cwd dirPath))
       else .error e) ∧
    (notFoundMetadata (resolvePath fs.cwd dirPath)).exists_ = false ∧
    (notFoundMetadata (resolvePath fs.cwd dirPath)).isDirectory = false ∧
    (notFoundMetadata (resolvePath fs.cwd dirPath)).readable = false ∧
    (notFoundMetadata (resolvePath fs.cwd dirPath)).writable = false ∧
    (notFoundMetadata (resolvePath fs.cwd dirPath)).executable = false ∧
    (notFoundMetadata (resolvePath fs.cwd dirPath)).totalItems = 0 ∧
    (notFoundMetadata (resolvePath fs.cwd dirPath)).totalSize = 0 ∧
    (notFoundMetadata (resolvePath fs.cwd dirPath)).lastAccessed = none ∧
    (notFoundMetadata (resolvePath fs.cwd dirPath)).lastModified = none ∧
    (notFoundMetadata (resolvePath fs.cwd dirPath)).created = none := by
  refine ⟨?_, rfl, rfl, rfl, rfl, rfl, rfl, rfl, rfl, rfl, rfl⟩
  unfold getDirectoryMetadata
  rw [hv]
  cases e <;> rfl

/-- Witness for C7: a missing path soft-succeeds, a traversal path errors. -/
theorem metadataProbe_notFound_soft_success_witness :
    getDirectoryMetadata fsEmpty "/missing" = .ok (notFoundMetadata "/missing") ∧
    getDirectoryMetadata fsEmpty "a/../../etc" = .error .pathTraversal := by
  constructor
  · have h := (metadataProbe_notFound_soft_success fsEmpty "/missing" .notFound (by rfl)).1
    simpa using h
  · have h := (metadataProbe_notFound_soft_success fsEmpty "a/../../etc" .pathTraversal
      (by rfl)).1
    simpa using h

/-! ## Claim C10: the probe on a regular file skips child counting -/

/-- C10: on an existing, readable, non-restricted path whose stat says it is
not a directory, the metadata probe succeeds with `exists = true`,
`isDirectory = false`, and zero `totalItems`/`totalSize` (the child-counting
branch is skipped entirely). -/
theorem metadataProbe_regular_file (fs : FS) (dirPath : String) (st : Stats)
    (hv : validatePath fs dirPath = .ok ())
    (hst : fs.statOf (resolvePath fs.cwd dirPath) = some st)
    (hfile : st.isDir = false) :
    ∃ m, getDirectoryMetadata fs dirPath = .ok m ∧
      m.exists_ = true ∧ m.isDirectory = false ∧ m.totalItems = 0 ∧ m.totalSize = 0 := by
  unfold getDirectoryMetadata
  simp only [hv, hst, hfile, Bool.false_eq_true, if_false]
  exact ⟨_, rfl, rfl, rfl, rfl, rfl⟩

/-- Witness for C10 at the regular file `/d/a` of `fsABC`. -/
theorem metadataProbe_regular_file_witness :
    ∃ m, getDirectoryMetadata fsABC "/d/a" = .ok m ∧
      m.exists_ = true ∧ m.isDirectory = false ∧ m.totalItems = 0 ∧ m.totalSize = 0 :=
  metadataProbe_regular_file fsABC "/d/a" fileStats (by rfl) (by rfl) (by rfl)

/-! ## Claim C9: permission probes never drop an entry; only stat does -/

/-- C9: per-entry resolution fails exactly when the entry's `stat` fails;
a failing access probe merely leaves its flag `false`, and each permission
flag equals the outcome of its probe. -/
theorem permission_probe_policy (fs : FS) (filePath fileName : String) :
    (createFileInfo fs filePath fileName = none ↔ fs.statOf filePath = none) ∧
    ∀ info, createFileInfo fs filePath fileName = some info →
      info.permissions.readable = fs.accessR filePath ∧
      info.permissions.writable = fs.accessW filePath ∧
      info.permissions.executable = fs.accessX filePath := by
  constructor
  · cases h : fs.statOf filePath <;> simp [createFileInfo, h]
  · intro info hinfo
    cases h : fs.statOf filePath with
    | none =>
      unfold createFileInfo at hinfo
      rw [h] at hinfo
      cases hinfo
    | some st =>
      unfold createFileInfo at hinfo
      rw [h] at hinfo
      obtain rfl := Option.some.inj hinfo.symm
      exact ⟨rfl, rfl, rfl⟩

/-- The resolved descriptor of `fsBad`'s child `good` (used by the C9
witness). -/
def goodInfo : FileInfo :=
  match createFileInfo fsBad "/d/good" "good" with
  | some i => i
  | none =>
    { name := ""
      path := ""
      size := 0
      extension := ""
      type := .file
      createdDate := 0
      modifiedDate := 0
      permissions :=
        { readable := false
          writable := false
          executable := false
          owner := ""
          group := ""
          mode := 0 }
      isHidden := false }

/-- Witness for C9: `good` resolves with flags equal to its probes
(read succeeds, write succeeds, execute fails), `bad` is dropped exactly
because its stat fails. -/
theorem permission_probe_policy_witness :
    createFileInfo fsBad "/d/good" "good" = some goodInfo ∧
    (goodInfo.permissions.readable = fsBad.accessR "/d/good" ∧
     goodInfo.permissions.writable = fsBad.accessW "/d/good" ∧
     goodInfo.permissions.executable = fsBad.accessX "/d/good") ∧
    goodInfo.permissions.readable = true ∧
    goodInfo.permissions.writable = true ∧
    goodInfo.permissions.executable = false ∧
    (createFileInfo fsBad "/d/bad" "bad" = none ↔ fsBad.statOf "/d/bad" = none) :=
  ⟨rfl, (permission_probe_policy fsBad "/d/good" "good").2 goodInfo rfl,
    rfl, rfl, rfl, (permission_probe_policy fsBad "/d/bad" "bad").1⟩

/-! ## Claim C6: a failing child is dropped silently, the call succeeds -/

/-- C6: when validation, the directory stat and the enumeration succeed, a
child whose metadata resolution fails (its stat throws) is silently omitted:
the call still returns `ok`, the reported total counts only the resolved
entries (strictly fewer than the enumerated names), and the result carries
no count of omissions — `resolveEntry` yields `none` for the failing child
and the total equals the length of the filtered set. -/
theorem failing_entry_dropped_silently (fs : FS) (now : Int) (dirPath : String)
    (page limit : Int) (includeHidden : Bool) (sortBy : SortKey) (sortOrder : SortOrder)
    (names : List String) (name : String) (st : Stats)
    (hv : validatePath fs dirPath = .ok ())
    (hst : fs.statOf (resolvePath fs.cwd dirPath) = some st)
    (hdir : st.isDir = true)
    (hrd : fs.readdirOf (resolvePath fs.cwd dirPath) = some names)
    (hmem : name ∈ names)
    (hfail : fs.statOf (joinPath (resolvePath fs.cwd dirPath) name) = none) :
    ∃ r, listDirectory fs now dirPath page limit includeHidden sortBy sortOrder = .ok r ∧
      r.pagination.total
        = ((collectEntries fs (resolvePath fs.cwd dirPath) includeHidden names).length : Int) ∧
      (collectEntries fs (resolvePath fs.cwd dirPath) includeHidden names).length
        < names.length ∧
      resolveEntry fs (resolvePath fs.cwd dirPath) includeHidden name = none := by
  have hres : resolveEntry fs (resolvePath fs.cwd dirPath) includeHidden name = none := by
    unfold resolveEntry createFileInfo
    rw [hfail]
  refine ⟨_, listDirectory_eq fs now dirPath page limit includeHidden sortBy sortOrder
    names st hv hst hdir hrd, ?_, length_filterMap_lt _ hmem hres, hres⟩
  show ((sortEntries sortBy sortOrder
      (collectEntries fs (resolvePath fs.cwd dirPath) includeHidden names)).length : Int) = _
  rw [sortEntries_length]

/-- Witness for C6: in `fsBad`, child `bad` of `/d` fails to stat; the call
succeeds with a total of 1 out of 2 enumerated names. -/
theorem failing_entry_dropped_silently_witness :
    ∃ r, listDirectory fsBad 0 "/d" 1 100 false .name .asc = .ok r ∧
      r.pagination.total
        = ((collectEntries fsBad (resolvePath fsBad.cwd "/d") false ["good", "bad"]).length : Int) ∧
      (collectEntries fsBad (resolvePath fsBad.cwd "/d") false ["good", "bad"]).length
        < (["good", "bad"] : List String).length ∧
      resolveEntry fsBad (resolvePath fsBad.cwd "/d") false "bad" = none :=
  failing_entry_dropped_silently fsBad 0 "/d" 1 100 false .name .asc
    ["good", "bad"] "bad" dirStats (by rfl) (by rfl) (by rfl) (by rfl)
    (by decide) (by rfl)

/-! ## Claim C8: repeated listings agree except for the scan timestamp -/

/-- C8 (amended): two listing calls against the same filesystem snapshot
with identical parameters agree on every field of the result except the
aggregate summary's `scannedAt`, which records each call's own clock
instant. -/
theorem listing_idempotent_up_to_scan_time (fs : FS) (t1 t2 : Int) (dirPath : String)
    (page limit : Int) (includeHidden : Bool) (sortBy : SortKey) (sortOrder : SortOrder) :
    eraseScanTime (listDirectory fs t1 dirPath page limit includeHidden sortBy sortOrder)
      = eraseScanTime (listDirectory fs t2 dirPath page limit includeHidden sortBy sortOrder) := by
  unfold listDirectory
  cases hv : validatePath fs dirPath with
  | error e => rfl
  | ok u =>
    cases hst : fs.statOf (resolvePath fs.cwd dirPath) with
    | none => simp only [hst]
    | some st =>
      by_cases hdir : st.isDir = true
      · cases hrd : fs.readdirOf (resolvePath fs.cwd dirPath) with
        | none => simp only [hst, if_pos hdir, hrd]
        | some names =>
          simp only [hst, if_pos hdir, hrd]
          rfl
      · simp only [hst, if_neg hdir]

/-- Counterexample to C8 as stated: on an unchanged directory, the two
consecutive calls (clock instants 0 and 7) give results that are not
identical — their `scannedAt` fields differ. -/
theorem listing_results_not_identical :
    listDirectory fsOne 0 "/d" 1 100 false .name .asc
      ≠ listDirectory fsOne 7 "/d" 1 100 false .name .asc := by
  decide

/-! ## Claim C3: the limit is validated into 1..1000, not clamped -/

/-- C3 (amended): every listing request that reaches the service — i.e.
passes the controller's boundary validation — uses a page size in 1..1000
for slicing; an out-of-range `limit` is rejected with a validation error,
it is never clamped into range. -/
theorem limit_validated_not_clamped (fs : FS) (now : Int) (q : ListingQuery)
    (res : Except ServiceError DirectoryListingResponse)
    (h : listEndpoint fs now q = some res) :
    1 ≤ q.limit.getD 100 ∧ q.limit.getD 100 ≤ 1000 ∧
    res = listDirectory fs now q.path (q.page.getD 1) (q.limit.getD 100)
      (q.includeHidden.getD false) (q.sortBy.getD .name) (q.sortOrder.getD .asc) := by
  unfold listEndpoint at h
  by_cases hval : listingQueryValid q = true
  · rw [if_pos hval] at h
    have hres := (Option.some.inj h).symm
    unfold listingQueryValid at hval
    simp only [Bool.and_eq_true] at hval
    obtain ⟨⟨⟨-, -⟩, -⟩, hlimit⟩ := hval
    cases hq : q.limit with
    | none =>
      rw [hq] at hres
      exact ⟨by simp, by simp, hres⟩
    | some l =>
      rw [hq] at hlimit hres
      simp only [Bool.and_eq_true, decide_eq_true_iff] at hlimit
      exact ⟨by simpa using hlimit.1, by simpa using hlimit.2, hres⟩
  · rw [if_neg hval] at h
    cases h

/-- A listing query asking for 5000 items per page. -/
def query5000 : ListingQuery where
  path := "/d"
  page := some 1
  limit := some 5000
  includeHidden := some false
  sortBy := some .name
  sortOrder := some .asc

/-- The same query with the limit already in range. -/
def query1000 : ListingQuery where
  path := "/d"
  page := some 1
  limit := some 1000
  includeHidden := some false
  sortBy := some .name
  sortOrder := some .asc

/-- Counterexample to C3 as stated: a limit of 5000 is not clamped to 1000
and then used — the request is rejected outright by validation (`none`,
the 400 response), while the same request at limit 1000 succeeds; a
clamping implementation would make the two calls agree. -/
theorem limit_5000_rejected_not_clamped :
    listEndpoint fsABC 0 query5000 = none ∧
    listEndpoint fsABC 0 query1000
      = some (listDirectory fsABC 0 "/d" 1 1000 false .name .asc) ∧
    listEndpoint fsABC 0 query5000 ≠ listEndpoint fsABC 0 query1000 := by
  refine ⟨rfl, rfl, ?_⟩
  intro h
  exact Option.noConfusion h

/-- Witness for the amended C3 at the in-range query. -/
theorem limit_validated_not_clamped_witness :
    1 ≤ query1000.limit.getD 100 ∧ query1000.limit.getD 100 ≤ 1000 ∧
    listDirectory fsABC 0 "/d" 1 1000 false .name .asc
      = listDirectory fsABC 0 query1000.path (query1000.page.getD 1)
          (query1000.limit.getD 100) (query1000.includeHidden.getD false)
          (query1000.sortBy.getD .name) (query1000.sortOrder.getD .asc) :=
  limit_validated_not_clamped fsABC 0 query1000
    (listDirectory fsABC 0 "/d" 1 1000 false .name .asc) rfl

/-! ## Field values of a built response (definitional unfoldings) -/

theorem br_items (fs : FS) (now : Int) (dirPath : String) (page limit : Int)
    (ih : Bool) (sb : SortKey) (so : SortOrder) (names : List String) :
    (buildResponse fs now dirPath page limit ih sb so names).items
      = jsSlice (sortEntries sb so (collectEntries fs (resolvePath fs.cwd dirPath) ih names))
          ((page - 1) * limit) ((page - 1) * limit + limit) := rfl

theorem br_total (fs : FS) (now : Int) (dirPath : String) (page limit : Int)
    (ih : Bool) (sb : SortKey) (so : SortOrder) (names : List String) :
    (buildResponse fs now dirPath page limit ih sb so names).pagination.total
      = (((sortEntries sb so (collectEntries fs (resolvePath fs.cwd dirPath) ih names)).length
          : Nat) : Int) := rfl

theorem br_totalPages (fs : FS) (now : Int) (dirPath : String) (page limit : Int)
    (ih : Bool) (sb : SortKey) (so : SortOrder) (names : List String) :
    (buildResponse fs now dirPath page limit ih sb so names).pagination.totalPages
      = ((((sortEntries sb so (collectEntries fs (resolvePath fs.cwd dirPath) ih names)).length
          : Nat) : Int) + limit - 1) / limit := rfl

theorem br_hasNext (fs : FS) (now : Int) (dirPath : String) (page limit : Int)
    (ih : Bool) (sb : SortKey) (so : SortOrder) (names : List String) :
    (buildResponse fs now dirPath page limit ih sb so names).pagination.hasNext
      = decide (page <
          ((((sortEntries sb so (collectEntries fs (resolvePath fs.cwd dirPath) ih names)).length
            : Nat) : Int) + limit - 1) / limit) := rfl

theorem br_hasPrevious (fs : FS) (now : Int) (dirPath : String) (page limit : Int)
    (ih : Bool) (sb : SortKey) (so : SortOrder) (names : List String) :
    (buildResponse fs now dirPath page limit ih sb so names).pagination.hasPrevious
      = decide (1 < page) := rfl

theorem br_totalFiles (fs : FS) (now : Int) (dirPath : String) (page limit : Int)
    (ih : Bool) (sb : SortKey) (so : SortOrder) (names : List String) :
    (buildResponse fs now dirPath page limit ih sb so names).metadata.totalFiles
      = ((sortEntries sb so (collectEntries fs (resolvePath fs.cwd dirPath) ih names)).filter
          (fun i => i.type == EntryType.file)).length := rfl

theorem br_totalDirectories (fs : FS) (now : Int) (dirPath : String) (page limit : Int)
    (ih : Bool) (sb : SortKey) (so : SortOrder) (names : List String) :
    (buildResponse fs now dirPath page limit ih sb so names).metadata.totalDirectories
      = ((sortEntries sb so (collectEntries fs (resolvePath fs.cwd dirPath) ih names)).filter
          (fun i => i.type == EntryType.directory)).length := rfl

theorem br_totalSize (fs : FS) (now : Int) (dirPath : String) (page limit : Int)
    (ih : Bool) (sb : SortKey) (so : SortOrder) (names : List String) :
    (buildResponse fs now dirPath page limit ih sb so names).metadata.totalSize
      = (((sortEntries sb so (collectEntries fs (resolvePath fs.cwd dirPath) ih names)).filter
          (fun i => i.type == EntryType.file)).map (fun i => i.size)).sum := rfl

/-! ## Claim C4: aggregates are computed over the whole filtered set -/

/-- C4: in every successful listing the aggregates are taken over the entire
filtered entry set rather than the returned page: file count plus directory
count equals the reported total, and the file/directory counts and total
file bytes all equal the corresponding quantities of the full filtered set
(`collectEntries`, before sorting and slicing). -/
theorem aggregates_over_full_filtered_set (fs : FS) (now : Int) (dirPath : String)
    (page limit : Int) (includeHidden : Bool) (sortBy : SortKey) (sortOrder : SortOrder)
    (names : List String) (st : Stats) (r : DirectoryListingResponse)
    (hv : validatePath fs dirPath = .ok ())
    (hst : fs.statOf (resolvePath fs.cwd dirPath) = some st)
    (hdir : st.isDir = true)
    (hrd : fs.readdirOf (resolvePath fs.cwd dirPath) = some names)
    (hok : listDirectory fs now dirPath page limit includeHidden sortBy sortOrder = .ok r) :
    ((r.metadata.totalFiles : Nat) : Int) + ((r.metadata.totalDirectories : Nat) : Int)
        = r.pagination.total ∧
    r.metadata.totalFiles
        = ((collectEntries fs (resolvePath fs.cwd dirPath) includeHidden names).filter
            (fun i => i.type == EntryType.file)).length ∧
    r.metadata.totalDirectories
        = ((collectEntries fs (resolvePath fs.cwd dirPath) includeHidden names).filter
            (fun i => i.type == EntryType.directory)).length ∧
    r.metadata.totalSize
        = (((collectEntries fs (resolvePath fs.cwd dirPath) includeHidden names).filter
            (fun i => i.type == EntryType.file)).map (fun i => i.size)).sum := by
  rw [listDirectory_eq fs now dirPath page limit includeHidden sortBy sortOrder
    names st hv hst hdir hrd] at hok
  obtain rfl := (Except.ok.inj hok).symm
  have hperm := sortEntries_perm sortBy sortOrder
    (collectEntries fs (resolvePath fs.cwd dirPath) includeHidden names)
  refine ⟨?_, ?_, ?_, ?_⟩
  · rw [br_totalFiles, br_totalDirectories, br_total]
    have := length_filter_kinds
      (sortEntries sortBy sortOrder
        (collectEntries fs (resolvePath fs.cwd dirPath) includeHidden names))
    omega
  · rw [br_totalFiles]
    exact (hperm.filter _).length_eq
  · rw [br_totalDirectories]
    exact (hperm.filter _).length_eq
  · rw [br_totalSize]
    exact ((hperm.filter _).map _).sum_eq

/-- Witness for C4 on the three-file directory `/d` of `fsABC`
(3 files, 0 directories, 15 bytes in total). -/
theorem aggregates_over_full_filtered_set_witness :
    (((buildResponse fsABC 0 "/d" 1 100 false .name .asc abcNames).metadata.totalFiles
        : Nat) : Int)
      + (((buildResponse fsABC 0 "/d" 1 100 false .name .asc abcNames).metadata.totalDirectories
        : Nat) : Int)
      = (buildResponse fsABC 0 "/d" 1 100 false .name .asc abcNames).pagination.total ∧
    (buildResponse fsABC 0 "/d" 1 100 false .name .asc abcNames).metadata.totalFiles = 3 ∧
    (buildResponse fsABC 0 "/d" 1 100 false .name .asc abcNames).metadata.totalDirectories = 0 ∧
    (buildResponse fsABC 0 "/d" 1 100 false .name .asc abcNames).metadata.totalSize = 15 :=
  ⟨(aggregates_over_full_filtered_set fsABC 0 "/d" 1 100 false .name .asc abcNames dirStats
      (buildResponse fsABC 0 "/d" 1 100 false .name .asc abcNames)
      rfl rfl rfl rfl rfl).1, rfl, rfl, rfl⟩

/-! ## Claim C5: slice semantics, totalPages, hasNext/hasPrevious -/

/-- C5: with `page ≥ 1` and `limit` in 1..1000, the returned page is the
slice `[(page-1)*limit, page*limit)` of the sorted filtered set; a start
index beyond the end yields an empty item list (not an error);
`totalPages` is the ceiling of `total / limit` (0 when the total is 0,
characterized by `(totalPages-1)*limit < total ≤ totalPages*limit`
otherwise); `hasNext` holds iff `page < totalPages` and `hasPrevious` iff
`page > 1`. -/
theorem page_slice_semantics (fs : FS) (now : Int) (dirPath : String)
    (page limit : Int) (includeHidden : Bool) (sortBy : SortKey) (sortOrder : SortOrder)
    (names : List String) (st : Stats) (r : DirectoryListingResponse)
    (hv : validatePath fs dirPath = .ok ())
    (hst : fs.statOf (resolvePath fs.cwd dirPath) = some st)
    (hdir : st.isDir = true)
    (hrd : fs.readdirOf (resolvePath fs.cwd dirPath) = some names)
    (hpage : 1 ≤ page) (hlim1 : 1 ≤ limit) (hlim2 : limit ≤ 1000)
    (hok : listDirectory fs now dirPath page limit includeHidden sortBy sortOrder = .ok r) :
    r.items = ((sortEntries sortBy sortOrder
        (collectEntries fs (resolvePath fs.cwd dirPath) includeHidden names)).drop
          ((page - 1) * limit).toNat).take limit.toNat ∧
    ((sortEntries sortBy sortOrder
        (collectEntries fs (resolvePath fs.cwd dirPath) includeHidden names)).length
          ≤ ((page - 1) * limit).toNat → r.items = []) ∧
    (r.pagination.total = 0 → r.pagination.totalPages = 0) ∧
    (0 < r.pagination.total →
      r.pagination.totalPages * limit < r.pagination.total + limit ∧
      r.pagination.total ≤ r.pagination.totalPages * limit) ∧
    (r.pagination.hasNext = true ↔ page < r.pagination.totalPages) ∧
    (r.pagination.hasPrevious = true ↔ 1 < page) := by
  rw [listDirectory_eq fs now dirPath page limit includeHidden sortBy sortOrder
    names st hv hst hdir hrd] at hok
  obtain rfl := (Except.ok.inj hok).symm
  have hL0 : ((limit.toNat : Nat) : Int) = limit := Int.toNat_of_nonneg (by omega)
  have hL1 : 1 ≤ limit.toNat := by omega
  have hp0 : ((page - 1).toNat : Int) = page - 1 := Int.toNat_of_nonneg (by omega)
  have hstart : (page - 1) * limit = (((page - 1).toNat * limit.toNat : Nat) : Int) := by
    push_cast
    rw [hp0, hL0]
  have hstop : (page - 1) * limit + limit
      = ((((page - 1).toNat * limit.toNat) + limit.toNat : Nat) : Int) := by
    push_cast
    rw [hp0, hL0]
  have hitems : (buildResponse fs now dirPath page limit includeHidden sortBy sortOrder
      names).items
      = ((sortEntries sortBy sortOrder
          (collectEntries fs (resolvePath fs.cwd dirPath) includeHidden names)).drop
            ((page - 1) * limit).toNat).take limit.toNat := by
    rw [br_items, hstop, hstart, jsSlice_natCast, Nat.add_sub_cancel_left,
      Int.toNat_natCast]
  refine ⟨hitems, ?_, ?_, ?_, ?_, ?_⟩
  · intro hbeyond
    rw [hitems, List.drop_eq_nil_of_le hbeyond, List.take_nil]
  · rw [br_total, br_totalPages]
    intro h0
    have hlen : (sortEntries sortBy sortOrder
        (collectEntries fs (resolvePath fs.cwd dirPath) includeHidden names)).length = 0 := by
      omega
    rw [hlen, totalPages_cast 0 hlim1, cdiv_zero hL1]
    rfl
  · rw [br_total, br_totalPages, totalPages_cast _ hlim1]
    intro hpos
    have hlen0 : 0 < (sortEntries sortBy sortOrder
        (collectEntries fs (resolvePath fs.cwd dirPath) includeHidden names)).length := by
      omega
    set len := (sortEntries sortBy sortOrder
      (collectEntries fs (resolvePath fs.cwd dirPath) includeHidden names)).length with hlendef
    have hub : cdiv len limit.toNat * limit.toNat < len + limit.toNat := by
      rw [cdiv_of_pos hL1 hlen0, Nat.add_mul, Nat.one_mul]
      have h1 : (len - 1) / limit.toNat * limit.toNat ≤ len - 1 := Nat.div_mul_le_self _ _
      omega
    have hlb : len ≤ cdiv len limit.toNat * limit.toNat := by
      rw [cdiv_of_pos hL1 hlen0, Nat.add_mul, Nat.one_mul]
      have hdm := Nat.div_add_mod (len - 1) limit.toNat
      have hml := Nat.mod_lt (len - 1) (show 0 < limit.toNat by omega)
      have hc : (len - 1) / limit.toNat * limit.toNat
          = limit.toNat * ((len - 1) / limit.toNat) := Nat.mul_comm _ _
      omega
    constructor
    · rw [← hL0]
      simp only [Int.toNat_natCast]
      exact_mod_cast hub
    · rw [← hL0]
      simp only [Int.toNat_natCast]
      exact_mod_cast hlb
  · rw [br_hasNext, br_totalPages]
    exact decide_eq_true_iff
  · rw [br_hasPrevious]
    exact decide_eq_true_iff

/-- Witness for C5, including the spec's concrete scenario: `limit=1,
page=2` on the name-sorted three-entry set of `fsABC` returns the single
item `b` with `totalPages = 3`, `hasNext`, `hasPrevious`. -/
theorem page_slice_semantics_witness :
    (buildResponse fsABC 0 "/d" 2 1 false .name .asc abcNames).items
      = ((sortEntries .name .asc
          (collectEntries fsABC (resolvePath fsABC.cwd "/d") false abcNames)).drop
            ((((2 : Int) - 1) * 1).toNat)).take ((1 : Int)).toNat ∧
    ((buildResponse fsABC 0 "/d" 2 1 false .name .asc abcNames).pagination.hasNext = true ↔
      (2 : Int) < (buildResponse fsABC 0 "/d" 2 1 false .name .asc abcNames).pagination.totalPages) ∧
    ((buildResponse fsABC 0 "/d" 2 1 false .name .asc abcNames).pagination.hasPrevious = true ↔
      (1 : Int) < 2) ∧
    ((buildResponse fsABC 0 "/d" 2 1 false .name .asc abcNames).items.map (fun i => i.name)
      = ["b"]) ∧
    (buildResponse fsABC 0 "/d" 2 1 false .name .asc abcNames).pagination.totalPages = 3 ∧
    (buildResponse fsABC 0 "/d" 2 1 false .name .asc abcNames).pagination.hasNext = true ∧
    (buildResponse fsABC 0 "/d" 2 1 false .name .asc abcNames).pagination.hasPrevious = true := by
  have h := page_slice_semantics fsABC 0 "/d" 2 1 false .name .asc abcNames dirStats
    (buildResponse fsABC 0 "/d" 2 1 false .name .asc abcNames)
    rfl rfl rfl rfl (by omega) (by omega) (by omega) rfl
  exact ⟨h.1, h.2.2.2.2.1, h.2.2.2.2.2, by rfl, by rfl, by rfl, by rfl⟩

/-! ## Claim C2: the pages partition the full sorted filtered set -/

/-- C2: at a fixed page size (parameters and directory contents unchanged),
concatenating the item lists of pages `1 .. totalPages` reproduces the full
filtered, sorted entry set exactly — list equality, so every entry appears
exactly once, with no duplication and no omission. -/
theorem pagination_partition (fs : FS) (now : Int) (dirPath : String) (limit : Int)
    (includeHidden : Bool) (sortBy : SortKey) (sortOrder : SortOrder)
    (names : List String) (st : Stats) (r₁ : DirectoryListingResponse)
    (hv : validatePath fs dirPath = .ok ())
    (hst : fs.statOf (resolvePath fs.cwd dirPath) = some st)
    (hdir : st.isDir = true)
    (hrd : fs.readdirOf (resolvePath fs.cwd dirPath) = some names)
    (hlim : 1 ≤ limit)
    (hok : listDirectory fs now dirPath 1 limit includeHidden sortBy sortOrder = .ok r₁) :
    ((List.range r₁.pagination.totalPages.toNat).map
        (fun k => itemsOf
          (listDirectory fs now dirPath ((k : Nat) + 1 : Int) limit includeHidden
            sortBy sortOrder))).flatten
      = sortEntries sortBy sortOrder
          (collectEntries fs (resolvePath fs.cwd dirPath) includeHidden names) := by
  rw [listDirectory_eq fs now dirPath 1 limit includeHidden sortBy sortOrder
    names st hv hst hdir hrd] at hok
  obtain rfl := (Except.ok.inj hok).symm
  have hL0 : ((limit.toNat : Nat) : Int) = limit := Int.toNat_of_nonneg (by omega)
  have hL1 : 1 ≤ limit.toNat := by omega
  rw [br_totalPages, totalPages_cast _ hlim, Int.toNat_natCast]
  have hpage : ∀ k : Nat,
      itemsOf (listDirectory fs now dirPath ((k : Nat) + 1 : Int) limit includeHidden
        sortBy sortOrder)
      = ((sortEntries sortBy sortOrder
          (collectEntries fs (resolvePath fs.cwd dirPath) includeHidden names)).drop
            (k * limit.toNat)).take limit.toNat := by
    intro k
    rw [listDirectory_eq fs now dirPath ((k : Nat) + 1 : Int) limit includeHidden
      sortBy sortOrder names st hv hst hdir hrd]
    show jsSlice
        (sortEntries sortBy sortOrder
          (collectEntries fs (resolvePath fs.cwd dirPath) includeHidden names))
        ((((k : Nat) : Int) + 1 - 1) * limit) ((((k : Nat) : Int) + 1 - 1) * limit + limit)
      = _
    have h2 : (((k : Nat) : Int) + 1 - 1) * limit + limit
        = ((k * limit.toNat + limit.toNat : Nat) : Int) := by
      push_cast
      rw [hL0]
      ring
    have h1 : (((k : Nat) : Int) + 1 - 1) * limit = ((k * limit.toNat : Nat) : Int) := by
      push_cast
      rw [hL0]
      ring
    rw [h2, h1, jsSlice_natCast, Nat.add_sub_cancel_left]
  simp only [hpage]
  exact pages_flatten hL1 _ _ rfl

/-- Witness for C2: the three files of `fsABC` at page size 2 come back as
two pages whose concatenation is the whole sorted set. -/
theorem pagination_partition_witness :
    ((List.range (buildResponse fsABC 0 "/d" 1 2 false .name .asc
        abcNames).pagination.totalPages.toNat).map
      (fun k => itemsOf
        (listDirectory fsABC 0 "/d" ((k : Nat) + 1 : Int) 2 false .name .asc))).flatten
      = sortEntries .name .asc
          (collectEntries fsABC (resolvePath fsABC.cwd "/d") false abcNames) :=
  pagination_partition fsABC 0 "/d" 2 false .name .asc abcNames dirStats
    (buildResponse fsABC 0 "/d" 1 2 false .name .asc abcNames)
    rfl rfl rfl rfl (by omega) rfl
